import Mathlib

/-!
Verification development for the `googleserp` scraping client
(`src/googleserp/google.py`).

The Python module is embedded shallowly:

* `filter_search_result_urls` (google.py lines 216-260) is embedded over a
  model of the pieces of `urllib.parse` that it calls (`urlparse` /
  `urlsplit`, `parse_qs`, `unquote`).  The stdlib model follows CPython's
  algorithms: scheme detection, `//`-netloc extraction, fragment and query
  splitting, `&`-separated pair parsing with blank values dropped,
  plus-to-space substitution and percent decoding with UTF-8 replacement
  semantics.
  The stdlib's `ValueError` for unbracketed IPv6 hosts is not modelled; in
  the Python code that exception is absorbed by the surrounding
  `try/except` into a `None` (reject) result, the same result the model
  produces on such hosts.
* `get_page` (lines 275-369) is embedded as a function of the stream of
  HTTP responses the network would deliver; cookie and consent handling,
  which never influences the returned value, is not modelled.
* `search` (lines 371-536) is embedded as a function of the configuration
  and of the stream of fetch outcomes (one per search-results page
  request).  HTML parsing by BeautifulSoup is abstracted: a fetched page
  is either the rate-limit sentinel or the ordered list of anchors
  (href / title / description) that the soup would yield.  An exhausted
  stream stands for further requests answering with an empty body, which
  yields no anchors.  The final `None` fall-through of the Python `while`
  loop is modelled by an `Option` result.
* `update_urls` (lines 182-214) is embedded as a pure function of the
  attributes it reads.
-/

namespace GoogleSerp

/-! ### Character and string helpers -/

/-- Does the second list start with the first list? -/
def listStartsWith : List Char → List Char → Bool
  | [], _ => true
  | _ :: _, [] => false
  | p :: ps, c :: cs => p == c && listStartsWith ps cs

/-- Python `str.startswith`. -/
def strStartsWith (s pre : String) : Bool :=
  listStartsWith pre.data s.data

/-- Python `needle in hay` on strings (contiguous substring). -/
def listHasSub (needle : List Char) : List Char → Bool
  | [] => needle.isEmpty
  | c :: cs => listStartsWith needle (c :: cs) || listHasSub needle cs

/-- ASCII lower-casing of one character, as Python `str.lower` acts on the
hosts we model. -/
def lowerChar (c : Char) : Char :=
  if 'A' ≤ c && c ≤ 'Z' then Char.ofNat (c.toNat + 32) else c

/-- Python `str.lower` (ASCII fragment). -/
def lowerStr (s : String) : String :=
  ⟨s.data.map lowerChar⟩

/-- Numeric value of a hexadecimal digit character, expressed over the
code point: digits are 48-57, lower-case a-f are 97-102 (value 10 at 97,
hence the offset 87), upper-case A-F are 65-70 (offset 55). -/
def hexVal (c : Char) : Option Nat :=
  let n := c.toNat
  if 48 ≤ n && n ≤ 57 then some (n - 48)
  else if 97 ≤ n && n ≤ 102 then some (n - 87)
  else if 65 ≤ n && n ≤ 70 then some (n - 55)
  else none

/-- Python `str.strip` / the whitespace set it removes (ASCII fragment). -/
def pyIsSpace (c : Char) : Bool :=
  c == ' ' || c == '\t' || c == '\n' || c == '\r' || c == '\x0b' || c == '\x0c'

/-- Python `str.strip()`. -/
def pyStrip (s : String) : String :=
  ⟨((s.data.dropWhile pyIsSpace).reverse.dropWhile pyIsSpace).reverse⟩

/-! ### Model of `urllib.parse` -/

/-- Unicode replacement character, produced by `errors="replace"`. -/
def replacementChar : Char := Char.ofNat 0xFFFD

/-- State of the UTF-8 decoder while inside a multi-byte sequence: how many
continuation bytes are still expected, the value accumulated so far, and the
admissible range of the next byte (the first continuation byte of a
sequence is range-restricted to exclude overlong forms and surrogates). -/
structure Utf8State where
  need : Nat
  acc : Nat
  lo : Nat
  hi : Nat
deriving Repr, DecidableEq

/-- Classify a byte in lead position: either an immediately produced
character (an ASCII byte, or a replacement character for an invalid lead)
or the opening state of a multi-byte sequence. -/
def utf8Lead (b : Nat) : Sum Char Utf8State :=
  if b < 0x80 then Sum.inl (Char.ofNat b)
  else if 0xC2 ≤ b && b ≤ 0xDF then Sum.inr ⟨1, b - 0xC0, 0x80, 0xBF⟩
  else if b == 0xE0 then Sum.inr ⟨2, 0, 0xA0, 0xBF⟩
  else if b == 0xED then Sum.inr ⟨2, 13, 0x80, 0x9F⟩
  else if 0xE1 ≤ b && b ≤ 0xEF then Sum.inr ⟨2, b - 0xE0, 0x80, 0xBF⟩
  else if b == 0xF0 then Sum.inr ⟨3, 0, 0x90, 0xBF⟩
  else if b == 0xF4 then Sum.inr ⟨3, 4, 0x80, 0x8F⟩
  else if 0xF1 ≤ b && b ≤ 0xF3 then Sum.inr ⟨3, b - 0xF0, 0x80, 0xBF⟩
  else Sum.inl replacementChar

/-- Byte-at-a-time UTF-8 decoding with replacement of malformed input, as
`bytes.decode("utf-8", errors="replace")` behaves on the byte runs that
`urllib.parse.unquote` accumulates.  A malformed sequence yields one
replacement character, and decoding resumes with the offending byte
reconsidered in lead position. -/
def utf8DecodeAux : Option Utf8State → List Nat → List Char
  | none, [] => []
  | some _, [] => [replacementChar]
  | none, b :: bs =>
    match utf8Lead b with
    | Sum.inl c => c :: utf8DecodeAux none bs
    | Sum.inr st => utf8DecodeAux (some st) bs
  | some st, b :: bs =>
    if st.lo ≤ b && b ≤ st.hi then
      let acc1 := st.acc * 64 + (b - 0x80)
      if st.need == 1 then Char.ofNat acc1 :: utf8DecodeAux none bs
      else utf8DecodeAux (some ⟨st.need - 1, acc1, 0x80, 0xBF⟩) bs
    else
      replacementChar ::
        match utf8Lead b with
        | Sum.inl c => c :: utf8DecodeAux none bs
        | Sum.inr st2 => utf8DecodeAux (some st2) bs

/-- UTF-8 decoding with replacement, starting outside any sequence. -/
def utf8Decode (bs : List Nat) : List Char :=
  utf8DecodeAux none bs

/-- Worker for `unquote`: scans the characters, accumulating the bytes of a
contiguous run of percent escapes (in reverse) and flushing them through the
UTF-8 decoder when the run ends. -/
def unquoteAux : List Char → List Nat → List Char
  | [], pending => utf8Decode pending.reverse
  | '%' :: c1 :: c2 :: rest, pending =>
    match hexVal c1, hexVal c2 with
    | some h1, some h2 => unquoteAux rest ((h1 * 16 + h2) :: pending)
    | _, _ => utf8Decode pending.reverse ++ '%' :: unquoteAux (c1 :: c2 :: rest) []
  | c :: rest, pending => utf8Decode pending.reverse ++ c :: unquoteAux rest []

/-- Python `urllib.parse.unquote` with UTF-8 replacement decoding. -/
def unquote (s : String) : String :=
  ⟨unquoteAux s.data []⟩

/-- The `+` to space substitution applied by `parse_qsl`. -/
def plusToSpace (s : String) : String :=
  ⟨s.data.map (fun c => if c == '+' then ' ' else c)⟩

/-- Python `str.split(sep)` for a one-character separator. -/
def splitOnChar (sep : Char) : List Char → List (List Char)
  | [] => [[]]
  | c :: rest =>
    let r := splitOnChar sep rest
    if c == sep then [] :: r
    else
      match r with
      | g :: gs => (c :: g) :: gs
      | [] => [[c]]

/-- Split a name-value chunk at its first `=`; `none` when there is no `=`. -/
def splitFirstEq : List Char → Option (List Char × List Char)
  | [] => none
  | '=' :: rest => some ([], rest)
  | c :: rest => (splitFirstEq rest).map (fun p => (c :: p.1, p.2))

/-- One `&`-separated chunk of a query string, as `parse_qsl` treats it with
`keep_blank_values=False` and `strict_parsing=False`: empty chunks, chunks
without `=` and chunks with an empty value are dropped; name and value get
plus substitution and percent decoding. -/
def qsPair (nv : List Char) : Option (String × String) :=
  match nv with
  | [] => none
  | _ =>
    match splitFirstEq nv with
    | none => none
    | some (n, v) =>
      match v with
      | [] => none
      | _ => some (unquote (plusToSpace ⟨n⟩), unquote (plusToSpace ⟨v⟩))

/-- Python `urllib.parse.parse_qsl` with default arguments. -/
def parse_qsl (qs : String) : List (String × String) :=
  (splitOnChar '&' qs.data).filterMap qsPair

/-- The expression `urllib.parse.parse_qs(qs)[key][0]`: first value listed
for `key`, or `none` where Python raises `KeyError`. -/
def qsFirstValue (qs key : String) : Option String :=
  ((parse_qsl qs).find? (fun p => p.1 == key)).map (fun p => p.2)

/-- Result of `urllib.parse.urlsplit` / `urlparse` (the `params` component,
which the client never reads, is left out). -/
structure UrlParts where
  scheme : String
  netloc : String
  path : String
  query : String
  fragment : String
deriving Repr, DecidableEq

/-- The sanitisation CPython applies on entry to `urlsplit`: leading C0
control or space characters are stripped and tab, CR and LF are removed
everywhere. -/
def sanitizeUrl (cs : List Char) : List Char :=
  (cs.dropWhile (fun c => c.toNat ≤ 0x20)).filter
    (fun c => !(c == '\t' || c == '\n' || c == '\r'))

/-- Characters allowed in a URL scheme. -/
def isSchemeChar (c : Char) : Bool :=
  c.isAlphanum || c == '+' || c == '-' || c == '.'

/-- Split at the first colon, or `none` when there is no colon. -/
def takeUntilColon : List Char → Option (List Char × List Char)
  | [] => none
  | ':' :: rest => some ([], rest)
  | c :: rest => (takeUntilColon rest).map (fun p => (c :: p.1, p.2))

/-- CPython scheme detection: a non-empty run of scheme characters starting
with a letter, terminated by the first colon. -/
def schemeSplit (cs : List Char) : Option (List Char × List Char) :=
  match takeUntilColon cs with
  | none => none
  | some (before, after) =>
    match before with
    | [] => none
    | c0 :: restc =>
      if c0.isAlpha && (c0 :: restc).all isSchemeChar then some (before, after)
      else none

/-- Netloc runs from after `//` to the first `/`, `?` or `#`. -/
def takeNetloc : List Char → List Char × List Char
  | [] => ([], [])
  | c :: rest =>
    if c == '/' || c == '?' || c == '#' then ([], c :: rest)
    else
      let (n, r) := takeNetloc rest
      (c :: n, r)

/-- Split at the first occurrence of `sep`; the second component tells
whether the separator occurred. -/
def splitFirstOn (sep : Char) : List Char → List Char × Option (List Char)
  | [] => ([], none)
  | c :: rest =>
    if c == sep then ([], some rest)
    else
      let (a, b) := splitFirstOn sep rest
      (c :: a, b)

/-- Python `urllib.parse.urlsplit(url, scheme=defaultScheme)` (with
`allow_fragments=True`).  `urlparse` adds only the `params` split, which the
client never uses. -/
def urlsplit (url defaultScheme : String) : UrlParts :=
  let cs := sanitizeUrl url.data
  let (scheme, rest1) :=
    match schemeSplit cs with
    | some (s, r) => ((⟨s.map lowerChar⟩ : String), r)
    | none => (defaultScheme, cs)
  let (netloc, rest2) :=
    if listStartsWith ['/', '/'] rest1 then
      let (n, r) := takeNetloc (rest1.drop 2)
      ((⟨n⟩ : String), r)
    else (("" : String), rest1)
  let (rest3, frag) := splitFirstOn '#' rest2
  let (path, q) := splitFirstOn '?' rest3
  { scheme := scheme
    netloc := netloc
    path := ⟨path⟩
    query := ⟨q.getD []⟩
    fragment := ⟨frag.getD []⟩ }

/-! ### The link filter (google.py lines 216-260) -/

/-- The Python exceptions the embedded code can raise: `KeyError` from the
redirector rewrite in the filter body, `ValueError` from the extra-params
collision check, and `UnboundLocalError` from the missing-href log line of
the anchor loop (see `processAnchors`). -/
inductive PyExc where
  | keyError
  | valueError (msg : String)
  | unboundLocalError
deriving Repr, DecidableEq

/-- Lines 230-238: hrefs using the redirector form are rewritten to the `q`
query parameter of the href, falling back to the `url` parameter; a missing
key raises `KeyError`. -/
def extract_redirector_target (link : String) : Except PyExc String :=
  let q := (urlsplit link "http").query
  match qsFirstValue q "q" with
  | some v => Except.ok v
  | none =>
    match qsFirstValue q "url" with
    | some v => Except.ok v
    | none => Except.error PyExc.keyError

/-- The guard of line 230. -/
def isRedirectorHref (link : String) : Bool :=
  strStartsWith link "/url?" || strStartsWith link "http://www.google.com/url?"

/-- Lines 240-253: parse the (possibly rewritten) link, reject it when it
has no netloc or when the netloc contains `google` case-insensitively. -/
def hostFilter (link1 : String) : Option String :=
  let u := urlsplit link1 "http"
  let r1 : Option String := if u.netloc == "" then none else some link1
  if !(u.netloc == "") && listHasSub "google".data (lowerStr u.netloc).data then none
  else r1

/-- The body of `filter_search_result_urls` without the outer
`try/except`. -/
def filter_search_result_urls_exc (link : String) : Except PyExc (Option String) :=
  match (if isRedirectorHref link then extract_redirector_target link else Except.ok link) with
  | Except.error e => Except.error e
  | Except.ok link1 => Except.ok (hostFilter link1)

/-- `SearchClient.filter_search_result_urls`: the outer `try/except` turns
every raised exception into the `None` (reject) result. -/
def filter_search_result_urls (link : String) : Option String :=
  match filter_search_result_urls_exc link with
  | Except.error _ => none
  | Except.ok r => r

/-- The link the filter goes on to host-check: the redirector rewrite when
the href has the redirector form (with `none` when the rewrite raises), and
the href itself otherwise. -/
def resolved_link (link : String) : Option String :=
  if isRedirectorHref link then
    match extract_redirector_target link with
    | Except.ok v => some v
    | Except.error _ => none
  else some link

/-! ### The page fetcher (google.py lines 275-369) -/

/-- An HTTP response as far as `get_page` inspects it. -/
structure HttpResponse where
  status : Nat
  body : String
deriving Repr, DecidableEq

/-- `SearchClient.get_page`, as a function of the stream of responses the
network delivers for the successive attempts on the one URL.  A 200
response returns its body; a 429 response returns the sentinel string when
`manages_http_429s` is false and otherwise sleeps and retries on the next
response; any other status returns the empty string.  Cookie, consent and
cool-off bookkeeping does not influence the returned value and is not
modelled; an exhausted stream stands for no further responses and yields
the empty body. -/
def get_page (manages_http_429s : Bool) : List HttpResponse → String
  | [] => ""
  | r :: rest =>
    if r.status = 200 then r.body
    else if r.status = 429 then
      if manages_http_429s then get_page manages_http_429s rest
      else "HTTP_429_DETECTED"
    else ""

/-! ### The search loop (google.py lines 371-536) -/

/-- An anchor as the result-page parser hands it to the loop: its `href`
attribute (absent for anchors that raise `KeyError` on `a["href"]`) and the
title and description texts that verbose mode extracts. -/
structure Anchor where
  href : Option String
  title : String
  description : String
deriving Repr, DecidableEq

/-- Outcome of one search-page fetch, after BeautifulSoup: either the
rate-limit sentinel from `get_page`, or the ordered anchors of the page
(an empty body parses to no anchors). -/
inductive FetchOutcome where
  | rate429
  | page (anchors : List Anchor)
deriving Repr, DecidableEq

/-- An element of `search_result_list`: a bare URL string (non-verbose
mode, and the rate-limit sentinel string) or a rank/title/description/url
record (verbose mode). -/
inductive ResultItem where
  | url (u : String)
  | record (rank : Nat) (title : String) (description : String) (url : String)
deriving Repr, DecidableEq

/-- The configuration attributes that the search loop reads. -/
structure SearchConfig where
  verbose_output : Bool
  max_search_result_urls_to_return : Nat
  extra_params : List (String × String)
deriving Repr

/-- Python's `link not in self.search_result_list` membership test: `==`
against every element.  A string compares equal only to a string element,
never to a record (dict), so in verbose mode no element can match. -/
def pyListContains (l : List ResultItem) (link : String) : Bool :=
  l.any fun r =>
    match r with
    | ResultItem.url u => u == link
    | ResultItem.record _ _ _ _ => false

/-- The loop state altered by one accepted link. -/
structure StepOutcome where
  results : List ResultItem
  total : Nat
  valid : Nat
deriving Repr, DecidableEq

/-- Lines 482-503: a link that passed the filter is appended (with the
counters bumped, and in verbose mode as a rank/title/description/url
record) unless the membership test finds it in the result list. -/
def stepAccept (cfg : SearchConfig) (a : Anchor) (link : String)
    (results : List ResultItem) (total valid : Nat) : StepOutcome :=
  if pyListContains results link then ⟨results, total, valid⟩
  else
    let total1 := total + 1
    let item :=
      if cfg.verbose_output then
        ResultItem.record total1 (pyStrip a.title) (pyStrip a.description) link
      else ResultItem.url link
    ⟨results ++ [item], total1, valid + 1⟩

/-- Outcome of the per-page anchor loop.  `linkBound` records whether the
function-local variable `link` of `search()` has been assigned yet; it is
carried across anchors and across pages of the same run. -/
structure PageOutcome where
  results : List ResultItem
  total : Nat
  valid : Nat
  linkBound : Bool
  reachedBudget : Bool
deriving Repr, DecidableEq

/-- Lines 449-507: process the page's anchors in order.  An anchor without
an href raises `KeyError` at `a["href"]` (line 452), and the handler at
line 454 formats `f"No href for link: {link}"`: the local `link` is read
before the `continue`, so if no anchor of the run has yet assigned `link`
the handler itself raises `UnboundLocalError`, which nothing in
`search()` catches; otherwise the anchor is skipped (logging the stale
value).  `link` becomes bound at the first anchor whose href is present
(line 452), whatever the filter then says.  Links the filter rejects are
skipped; every link that passes the filter goes through `stepAccept` and
is then subject to the budget check `max_search_result_urls_to_return <=
len(search_result_list)`, which makes the whole search return mid-page
(`reachedBudget`). -/
def processAnchors (cfg : SearchConfig) :
    List Anchor → List ResultItem → Nat → Nat → Bool → Except PyExc PageOutcome
  | [], results, total, valid, linkBound =>
    Except.ok ⟨results, total, valid, linkBound, false⟩
  | a :: rest, results, total, valid, linkBound =>
    match a.href with
    | none =>
      if linkBound then processAnchors cfg rest results total valid linkBound
      else Except.error PyExc.unboundLocalError
    | some href =>
      match filter_search_result_urls href with
      | none => processAnchors cfg rest results total valid true
      | some link =>
        let s := stepAccept cfg a link results total valid
        if cfg.max_search_result_urls_to_return ≤ s.results.length then
          Except.ok ⟨s.results, s.total, s.valid, true, true⟩
        else processAnchors cfg rest s.results s.total s.valid true

/-- Lines 399-536, the `while total_valid_links_found <=
max_search_result_urls_to_return` loop, as a function of the stream of
fetch outcomes for the successive page requests.  Each iteration performs
one fetch.  A sentinel fetch appends the sentinel string and returns; a
page that reaches the budget or yields no valid link returns; an
`UnboundLocalError` raised inside the anchor loop propagates out
(`Except.error`); otherwise the loop advances (`start += num`, URL
rebuild and the randomized sleep do not affect the returned value),
carrying the bound state of the local `link` variable.  Falling out of
the `while` loop returns Python `None`, modelled as `Except.ok none`; an
exhausted stream stands for requests answering with an empty body, which
yields no anchors. -/
def searchLoop (cfg : SearchConfig) :
    List FetchOutcome → List ResultItem → Nat → Bool → Nat →
      Except PyExc (Option (List ResultItem)) × Nat
  | pages, results, total, linkBound, fetches =>
    if total ≤ cfg.max_search_result_urls_to_return then
      match pages with
      | [] => (Except.ok (some results), fetches + 1)
      | FetchOutcome.rate429 :: _ =>
        (Except.ok (some (results ++ [ResultItem.url "HTTP_429_DETECTED"])), fetches + 1)
      | FetchOutcome.page anchors :: rest =>
        match processAnchors cfg anchors results total 0 linkBound with
        | Except.error e => (Except.error e, fetches + 1)
        | Except.ok o =>
          if o.reachedBudget then (Except.ok (some o.results), fetches + 1)
          else if o.valid = 0 then (Except.ok (some o.results), fetches + 1)
          else searchLoop cfg rest o.results o.total o.linkBound (fetches + 1)
    else (Except.ok none, fetches)

/-- Line 153-163: the built-in GET parameter names checked for
collisions. -/
def google_url_parameters : List String :=
  ["btnG", "cr", "hl", "num", "q", "safe", "start", "tbs", "lr"]

/-- Lines 390-392: the first built-in parameter that also occurs as a key
of `extra_params`, if any. -/
def firstOverlappingParam (extra : List (String × String)) : Option String :=
  google_url_parameters.find? fun p => extra.any fun kv => kv.1 == p

/-- `SearchClient.search` (lines 371-536): validate `extra_params` against
the built-in parameter names, raising `ValueError` before anything else;
then perform the warm-up home-page fetch (whose body is never examined)
and run the page loop with the local `link` variable initially unbound.
An uncaught `UnboundLocalError` from the loop also surfaces as
`Except.error`.  The second component counts the page fetches performed,
the warm-up fetch included. -/
def search (cfg : SearchConfig) (pages : List FetchOutcome) :
    Except PyExc (Option (List ResultItem)) × Nat :=
  match firstOverlappingParam cfg.extra_params with
  | some p =>
    (Except.error (PyExc.valueError
      ("GET parameter \"" ++ p ++ "\" is overlapping with the built-in GET parameter")), 0)
  | none => searchLoop cfg pages [] 0 false 1

/-! ### The URL builder (google.py lines 182-214) -/

/-- The attributes `update_urls` reads.  `query` holds the
`urllib.parse.quote_plus`-encoded query stored by the constructor. -/
structure UrlConfig where
  query : String
  tld : String
  lang_html_ui : String
  lang_result : String
  tbs : String
  safe : String
  start : Nat
  num : Nat
  country : String
deriving Repr, DecidableEq

/-- The four search URL templates plus the home URL. -/
structure SearchUrls where
  url_home : String
  url_search : String
  url_next_page : String
  url_search_num : String
  url_next_page_num : String
deriving Repr, DecidableEq

/-- `SearchClient.update_urls`: the five f-strings of lines 186-214. -/
def update_urls (c : UrlConfig) : SearchUrls :=
  { url_home := "https://www.google." ++ c.tld ++ "/"
    url_search :=
      "https://www.google." ++ c.tld ++ "/search?hl=" ++ c.lang_html_ui ++
        "&lr=" ++ c.lang_result ++ "&q=" ++ c.query ++
        "&btnG=Google+Search&tbs=" ++ c.tbs ++ "&safe=" ++ c.safe ++
        "&cr=" ++ c.country ++ "&filter=0"
    url_next_page :=
      "https://www.google." ++ c.tld ++ "/search?hl=" ++ c.lang_html_ui ++
        "&lr=" ++ c.lang_result ++ "&q=" ++ c.query ++
        "&start=" ++ toString c.start ++ "&tbs=" ++ c.tbs ++
        "&safe=" ++ c.safe ++ "&cr=" ++ c.country ++ "&filter=0"
    url_search_num :=
      "https://www.google." ++ c.tld ++ "/search?hl=" ++ c.lang_html_ui ++
        "&lr=" ++ c.lang_result ++ "&q=" ++ c.query ++
        "&num=" ++ toString c.num ++ "&btnG=Google+Search&tbs=" ++ c.tbs ++
        "&safe=" ++ c.safe ++ "&cr=" ++ c.country ++ "&filter=0"
    url_next_page_num :=
      "https://www.google." ++ c.tld ++ "/search?hl=" ++ c.lang_html_ui ++
        "&lr=" ++ c.lang_result ++ "&q=" ++ c.query ++
        "&start=" ++ toString c.start ++ "&num=" ++ toString c.num ++
        "&tbs=" ++ c.tbs ++ "&safe=" ++ c.safe ++ "&cr=" ++ c.country ++
        "&filter=0" }

/-- The URL carried by a result-list element (the `url` key of a verbose
record, or the string itself). -/
def itemUrl : ResultItem → String
  | ResultItem.url u => u
  | ResultItem.record _ _ _ u => u

/-- How many elements of the result list carry the given URL. -/
def countUrl (l : List ResultItem) (u : String) : Nat :=
  (l.filter fun r => itemUrl r == u).length

/-! ### Helper lemmas -/

theorem exists_find?_eq_some_of_mem {α} (p : α → Bool) :
    ∀ (l : List α) (x : α), x ∈ l → p x = true → ∃ y, l.find? p = some y := by
  intro l
  induction l with
  | nil => intro x hx; cases hx
  | cons a as ih =>
    intro x hx hp
    by_cases hpa : p a = true
    · exact ⟨a, by simp [List.find?, hpa]⟩
    · cases hx with
      | head => exact absurd hp hpa
      | tail _ hmem =>
        obtain ⟨y, hy⟩ := ih x hmem hp
        exact ⟨y, by simp [List.find?, Bool.of_not_eq_true hpa, hy]⟩

theorem hostFilter_none_of_google (l1 : String)
    (h : listHasSub "google".data (lowerStr (urlsplit l1 "http").netloc).data = true) :
    hostFilter l1 = none := by
  unfold hostFilter
  by_cases hn : (urlsplit l1 "http").netloc == ""
  · exfalso
    have hempty : (urlsplit l1 "http").netloc = "" := by
      simpa using hn
    rw [hempty] at h
    exact absurd h (by decide)
  · simp only [Bool.not_eq_true] at hn
    simp [hn, h]

theorem resolved_link_exc (link l1 : String) (h : resolved_link link = some l1) :
    (if isRedirectorHref link then extract_redirector_target link else Except.ok link)
      = Except.ok l1 := by
  unfold resolved_link at h
  by_cases hg : isRedirectorHref link = true
  · rw [if_pos hg] at h ⊢
    cases he : extract_redirector_target link with
    | ok v => rw [he] at h; simp at h; rw [h]
    | error e => rw [he] at h; simp at h
  · have hg' : isRedirectorHref link = false := Bool.of_not_eq_true hg
    rw [hg'] at h ⊢
    simp at h ⊢
    rw [h]

theorem stepAccept_cases (cfg : SearchConfig) (a : Anchor) (link : String)
    (res : List ResultItem) (t v : Nat) :
    stepAccept cfg a link res t v = ⟨res, t, v⟩ ∨
      ∃ item, stepAccept cfg a link res t v = ⟨res ++ [item], t + 1, v + 1⟩ := by
  unfold stepAccept
  split
  · exact Or.inl rfl
  · exact Or.inr ⟨_, rfl⟩

theorem processAnchors_valid_mono (cfg : SearchConfig) (as : List Anchor) :
    ∀ res t v bound o, processAnchors cfg as res t v bound = Except.ok o →
      v ≤ o.valid := by
  induction as with
  | nil =>
    intro res t v bound o h
    injection h with h
    subst h
    exact Nat.le_refl v
  | cons a rest ih =>
    intro res t v bound o h
    cases hh : a.href with
    | none =>
      rw [show processAnchors cfg (a :: rest) res t v bound =
          (if bound then processAnchors cfg rest res t v bound
           else Except.error PyExc.unboundLocalError) by
        simp only [processAnchors, hh]] at h
      by_cases hb : bound = true
      · rw [if_pos hb] at h
        exact ih res t v bound o h
      · rw [if_neg hb] at h
        exact Except.noConfusion h
    | some href =>
      cases hf : filter_search_result_urls href with
      | none =>
        rw [show processAnchors cfg (a :: rest) res t v bound =
            processAnchors cfg rest res t v true by
          simp only [processAnchors, hh, hf]] at h
        exact ih res t v true o h
      | some link =>
        rcases stepAccept_cases cfg a link res t v with hs | ⟨item, hs⟩
        · rw [show processAnchors cfg (a :: rest) res t v bound =
              (if cfg.max_search_result_urls_to_return ≤ res.length
                then Except.ok ⟨res, t, v, true, true⟩
                else processAnchors cfg rest res t v true) by
            simp only [processAnchors, hh, hf, hs]] at h
          split at h
          · injection h with h
            subst h
            exact Nat.le_refl v
          · exact ih res t v true o h
        · rw [show processAnchors cfg (a :: rest) res t v bound =
              (if cfg.max_search_result_urls_to_return ≤ (res ++ [item]).length
                then Except.ok ⟨res ++ [item], t + 1, v + 1, true, true⟩
                else processAnchors cfg rest (res ++ [item]) (t + 1) (v + 1) true) by
            simp only [processAnchors, hh, hf, hs]] at h
          split at h
          · injection h with h
            subst h
            exact Nat.le_succ v
          · exact Nat.le_trans (Nat.le_succ v)
              (ih (res ++ [item]) (t + 1) (v + 1) true o h)

theorem processAnchors_valid_eq (cfg : SearchConfig) (as : List Anchor) :
    ∀ res t v bound o, processAnchors cfg as res t v bound = Except.ok o →
      o.valid = v → o.results = res ∧ o.total = t := by
  induction as with
  | nil =>
    intro res t v bound o h _
    injection h with h
    subst h
    exact ⟨rfl, rfl⟩
  | cons a rest ih =>
    intro res t v bound o h hval
    cases hh : a.href with
    | none =>
      rw [show processAnchors cfg (a :: rest) res t v bound =
          (if bound then processAnchors cfg rest res t v bound
           else Except.error PyExc.unboundLocalError) by
        simp only [processAnchors, hh]] at h
      by_cases hb : bound = true
      · rw [if_pos hb] at h
        exact ih res t v bound o h hval
      · rw [if_neg hb] at h
        exact Except.noConfusion h
    | some href =>
      cases hf : filter_search_result_urls href with
      | none =>
        rw [show processAnchors cfg (a :: rest) res t v bound =
            processAnchors cfg rest res t v true by
          simp only [processAnchors, hh, hf]] at h
        exact ih res t v true o h hval
      | some link =>
        rcases stepAccept_cases cfg a link res t v with hs | ⟨item, hs⟩
        · rw [show processAnchors cfg (a :: rest) res t v bound =
              (if cfg.max_search_result_urls_to_return ≤ res.length
                then Except.ok ⟨res, t, v, true, true⟩
                else processAnchors cfg rest res t v true) by
            simp only [processAnchors, hh, hf, hs]] at h
          split at h
          · injection h with h
            subst h
            exact ⟨rfl, rfl⟩
          · exact ih res t v true o h hval
        · exfalso
          rw [show processAnchors cfg (a :: rest) res t v bound =
              (if cfg.max_search_result_urls_to_return ≤ (res ++ [item]).length
                then Except.ok ⟨res ++ [item], t + 1, v + 1, true, true⟩
                else processAnchors cfg rest (res ++ [item]) (t + 1) (v + 1) true) by
            simp only [processAnchors, hh, hf, hs]] at h
          split at h
          · injection h with h
            subst h
            exact Nat.succ_ne_self v hval
          · have hmono :=
              processAnchors_valid_mono cfg rest (res ++ [item]) (t + 1) (v + 1) true o h
            rw [hval] at hmono
            exact Nat.not_succ_le_self v hmono

theorem processAnchors_budget_le (cfg : SearchConfig) (as : List Anchor) :
    ∀ res t v bound o, res.length < cfg.max_search_result_urls_to_return →
      processAnchors cfg as res t v bound = Except.ok o →
      o.results.length ≤ cfg.max_search_result_urls_to_return ∧
        (o.reachedBudget = false →
          o.results.length < cfg.max_search_result_urls_to_return) := by
  induction as with
  | nil =>
    intro res t v bound o hlt h
    injection h with h
    subst h
    exact ⟨Nat.le_of_lt hlt, fun _ => hlt⟩
  | cons a rest ih =>
    intro res t v bound o hlt h
    cases hh : a.href with
    | none =>
      rw [show processAnchors cfg (a :: rest) res t v bound =
          (if bound then processAnchors cfg rest res t v bound
           else Except.error PyExc.unboundLocalError) by
        simp only [processAnchors, hh]] at h
      by_cases hb : bound = true
      · rw [if_pos hb] at h
        exact ih res t v bound o hlt h
      · rw [if_neg hb] at h
        exact Except.noConfusion h
    | some href =>
      cases hf : filter_search_result_urls href with
      | none =>
        rw [show processAnchors cfg (a :: rest) res t v bound =
            processAnchors cfg rest res t v true by
          simp only [processAnchors, hh, hf]] at h
        exact ih res t v true o hlt h
      | some link =>
        rcases stepAccept_cases cfg a link res t v with hs | ⟨item, hs⟩
        · rw [show processAnchors cfg (a :: rest) res t v bound =
              (if cfg.max_search_result_urls_to_return ≤ res.length
                then Except.ok ⟨res, t, v, true, true⟩
                else processAnchors cfg rest res t v true) by
            simp only [processAnchors, hh, hf, hs]] at h
          rw [if_neg (Nat.not_le_of_lt hlt)] at h
          exact ih res t v true o hlt h
        · rw [show processAnchors cfg (a :: rest) res t v bound =
              (if cfg.max_search_result_urls_to_return ≤ (res ++ [item]).length
                then Except.ok ⟨res ++ [item], t + 1, v + 1, true, true⟩
                else processAnchors cfg rest (res ++ [item]) (t + 1) (v + 1) true) by
            simp only [processAnchors, hh, hf, hs]] at h
          have hlen : (res ++ [item]).length = res.length + 1 := by simp
          by_cases hc : cfg.max_search_result_urls_to_return ≤ (res ++ [item]).length
          · rw [if_pos hc] at h
            injection h with h
            subst h
            refine ⟨?_, ?_⟩
            · show (res ++ [item]).length ≤ cfg.max_search_result_urls_to_return
              rw [hlen]
              exact Nat.succ_le_of_lt hlt
            · intro hfalse
              cases hfalse
          · rw [if_neg hc] at h
            have hlt' : (res ++ [item]).length < cfg.max_search_result_urls_to_return :=
              Nat.lt_of_not_le hc
            exact ih (res ++ [item]) (t + 1) (v + 1) true o hlt' h

theorem searchLoop_length (cfg : SearchConfig) :
    ∀ (pages : List FetchOutcome) (res : List ResultItem) (t : Nat) (bound : Bool)
      (f : Nat) (l : List ResultItem) (n : Nat),
      res.length < cfg.max_search_result_urls_to_return →
      searchLoop cfg pages res t bound f = (Except.ok (some l), n) →
      l.length ≤ cfg.max_search_result_urls_to_return := by
  intro pages
  induction pages with
  | nil =>
    intro res t bound f l n hlt heq
    have hstep : searchLoop cfg [] res t bound f =
        if t ≤ cfg.max_search_result_urls_to_return then (Except.ok (some res), f + 1)
        else (Except.ok none, f) := rfl
    rw [hstep] at heq
    by_cases ht : t ≤ cfg.max_search_result_urls_to_return
    · rw [if_pos ht] at heq
      injection heq with h1 h2
      injection h1 with h1
      injection h1 with h1
      rw [← h1]
      exact Nat.le_of_lt hlt
    · rw [if_neg ht] at heq
      injection heq with h1 h2
      injection h1 with h1
      exact Option.noConfusion h1
  | cons p rest ih =>
    intro res t bound f l n hlt heq
    cases p with
    | rate429 =>
      have hstep : searchLoop cfg (FetchOutcome.rate429 :: rest) res t bound f =
          if t ≤ cfg.max_search_result_urls_to_return then
            (Except.ok (some (res ++ [ResultItem.url "HTTP_429_DETECTED"])), f + 1)
          else (Except.ok none, f) := rfl
      rw [hstep] at heq
      by_cases ht : t ≤ cfg.max_search_result_urls_to_return
      · rw [if_pos ht] at heq
        injection heq with h1 h2
        injection h1 with h1
        injection h1 with h1
        rw [← h1]
        simpa using Nat.succ_le_of_lt hlt
      · rw [if_neg ht] at heq
        injection heq with h1 h2
        injection h1 with h1
        exact Option.noConfusion h1
    | page anchors =>
      have hstep : searchLoop cfg (FetchOutcome.page anchors :: rest) res t bound f =
          if t ≤ cfg.max_search_result_urls_to_return then
            (match processAnchors cfg anchors res t 0 bound with
             | Except.error e => (Except.error e, f + 1)
             | Except.ok o =>
               if o.reachedBudget then (Except.ok (some o.results), f + 1)
               else if o.valid = 0 then (Except.ok (some o.results), f + 1)
               else searchLoop cfg rest o.results o.total o.linkBound (f + 1))
          else (Except.ok none, f) := rfl
      rw [hstep] at heq
      by_cases ht : t ≤ cfg.max_search_result_urls_to_return
      · rw [if_pos ht] at heq
        cases hpa : processAnchors cfg anchors res t 0 bound with
        | error e =>
          simp only [hpa] at heq
          injection heq with h1 h2
          exact Except.noConfusion h1
        | ok o =>
          simp only [hpa] at heq
          have hbudget := processAnchors_budget_le cfg anchors res t 0 bound o hlt hpa
          by_cases hb : o.reachedBudget = true
          · rw [if_pos hb] at heq
            injection heq with h1 h2
            injection h1 with h1
            injection h1 with h1
            rw [← h1]
            exact hbudget.1
          · rw [if_neg hb] at heq
            have hb' : o.reachedBudget = false := Bool.eq_false_iff.mpr hb
            by_cases hv : o.valid = 0
            · rw [if_pos hv] at heq
              injection heq with h1 h2
              injection h1 with h1
              injection h1 with h1
              rw [← h1]
              exact hbudget.1
            · rw [if_neg hv] at heq
              exact ih o.results o.total o.linkBound (f + 1) l n (hbudget.2 hb') heq
      · rw [if_neg ht] at heq
        injection heq with h1 h2
        injection h1 with h1
        exact Option.noConfusion h1

/-! ### Claim theorems -/

/-- C4: for every href beginning with `/url?` or
`http://www.google.com/url?`, the link filter rewrites it to the value of
its `q` query parameter, falling back to its `url` parameter when `q` is
absent, and rejects the link (returns `none`) when neither parameter can
be extracted; in particular `/url?q=https://example.com/page&other=1`
yields `https://example.com/page`. -/
theorem c4_redirector_rewrite :
    (∀ link : String, isRedirectorHref link = true →
      ((∀ v, qsFirstValue (urlsplit link "http").query "q" = some v →
          extract_redirector_target link = Except.ok v) ∧
       (qsFirstValue (urlsplit link "http").query "q" = none →
         ∀ v, qsFirstValue (urlsplit link "http").query "url" = some v →
           extract_redirector_target link = Except.ok v) ∧
       (qsFirstValue (urlsplit link "http").query "q" = none →
         qsFirstValue (urlsplit link "http").query "url" = none →
         filter_search_result_urls link = none))) ∧
    filter_search_result_urls "/url?q=https://example.com/page&other=1"
      = some "https://example.com/page" := by
  constructor
  · intro link hred
    refine ⟨?_, ?_, ?_⟩
    · intro v hv
      unfold extract_redirector_target
      simp only [hv]
    · intro hq v hurl
      unfold extract_redirector_target
      simp only [hq, hurl]
    · intro hq hurl
      have hexc : extract_redirector_target link = Except.error PyExc.keyError := by
        unfold extract_redirector_target
        simp only [hq, hurl]
      unfold filter_search_result_urls filter_search_result_urls_exc
      rw [if_pos hred, hexc]
  · rfl

/-- Witness for C4 at the spec's example href. -/
theorem c4_redirector_rewrite_witness :
    isRedirectorHref "/url?q=https://example.com/page&other=1" = true ∧
    qsFirstValue (urlsplit "/url?q=https://example.com/page&other=1" "http").query "q"
      = some "https://example.com/page" ∧
    extract_redirector_target "/url?q=https://example.com/page&other=1"
      = Except.ok "https://example.com/page" :=
  ⟨rfl, rfl,
    (c4_redirector_rewrite.1 "/url?q=https://example.com/page&other=1" rfl).1
      "https://example.com/page" rfl⟩

/-- C5: every href whose resolved (possibly redirector-unwrapped) URL has
a host containing the substring `google` case-insensitively is rejected by
the link filter; in particular `/url?q=http://maps.google.com/foo` is
rejected. -/
theorem c5_google_host_rejected :
    (∀ link l1 : String, resolved_link link = some l1 →
      listHasSub "google".data (lowerStr (urlsplit l1 "http").netloc).data = true →
      filter_search_result_urls link = none) ∧
    filter_search_result_urls "/url?q=http://maps.google.com/foo" = none := by
  constructor
  · intro link l1 hres hgoog
    unfold filter_search_result_urls filter_search_result_urls_exc
    rw [resolved_link_exc link l1 hres]
    simp [hostFilter_none_of_google l1 hgoog]
  · rfl

/-- Witness for C5 at the spec's example href. -/
theorem c5_google_host_rejected_witness :
    resolved_link "/url?q=http://maps.google.com/foo" = some "http://maps.google.com/foo" ∧
    listHasSub "google".data
      (lowerStr (urlsplit "http://maps.google.com/foo" "http").netloc).data = true ∧
    filter_search_result_urls "/url?q=http://maps.google.com/foo" = none :=
  ⟨rfl, rfl,
    c5_google_host_rejected.1 "/url?q=http://maps.google.com/foo"
      "http://maps.google.com/foo" rfl rfl⟩

/-- C10: the link filter is total at its public interface: on every href
it returns either a URL string or `none`, every exception of the body is
absorbed by the outer `try/except` into the `none` result, and the
exception path is reachable (a redirector href with neither a `q` nor a
`url` parameter raises `KeyError`, and the filter returns `none` on
it). -/
theorem c10_filter_total :
    (∀ link : String,
      (∃ u, filter_search_result_urls link = some u) ∨
        filter_search_result_urls link = none) ∧
    (∀ link e, filter_search_result_urls_exc link = Except.error e →
      filter_search_result_urls link = none) ∧
    filter_search_result_urls_exc "/url?a=b" = Except.error PyExc.keyError ∧
    filter_search_result_urls "/url?a=b" = none := by
  refine ⟨?_, ?_, rfl, rfl⟩
  · intro link
    cases h : filter_search_result_urls link with
    | none => exact Or.inr rfl
    | some u => exact Or.inl ⟨u, rfl⟩
  · intro link e he
    unfold filter_search_result_urls
    rw [he]

/-- Witness for C10: the absorption statement applied at a href that makes
the body raise `KeyError`. -/
theorem c10_filter_total_witness :
    filter_search_result_urls_exc "/url?a=b" = Except.error PyExc.keyError ∧
    filter_search_result_urls "/url?a=b" = none :=
  ⟨rfl, c10_filter_total.2.1 "/url?a=b" PyExc.keyError rfl⟩

/-- C9: URL building is deterministic: two invocations of the URL builder
on identical configuration state (same query, tld, languages, tbs, safe,
start, num, country) produce byte-identical strings for all four search
URL variants. -/
theorem c9_update_urls_deterministic :
    ∀ c1 c2 : UrlConfig,
      c1.query = c2.query → c1.tld = c2.tld →
      c1.lang_html_ui = c2.lang_html_ui → c1.lang_result = c2.lang_result →
      c1.tbs = c2.tbs → c1.safe = c2.safe → c1.start = c2.start →
      c1.num = c2.num → c1.country = c2.country →
      (update_urls c1).url_search = (update_urls c2).url_search ∧
      (update_urls c1).url_next_page = (update_urls c2).url_next_page ∧
      (update_urls c1).url_search_num = (update_urls c2).url_search_num ∧
      (update_urls c1).url_next_page_num = (update_urls c2).url_next_page_num := by
  intro c1 c2 h1 h2 h3 h4 h5 h6 h7 h8 h9
  cases c1
  cases c2
  simp only at h1 h2 h3 h4 h5 h6 h7 h8 h9
  subst h1; subst h2; subst h3; subst h4; subst h5; subst h6; subst h7
  subst h8; subst h9
  exact ⟨rfl, rfl, rfl, rfl⟩

/-- Witness for C9 at a concrete configuration, written out twice. -/
theorem c9_update_urls_deterministic_witness :
    (update_urls ⟨"pizza+delivery", "com", "en", "lang_en", "0", "off", 0, 100, "us"⟩).url_search
      = (update_urls ⟨"pizza+delivery", "com", "en", "lang_en", "0", "off", 0, 100, "us"⟩).url_search ∧
    (update_urls ⟨"pizza+delivery", "com", "en", "lang_en", "0", "off", 0, 100, "us"⟩).url_next_page
      = (update_urls ⟨"pizza+delivery", "com", "en", "lang_en", "0", "off", 0, 100, "us"⟩).url_next_page ∧
    (update_urls ⟨"pizza+delivery", "com", "en", "lang_en", "0", "off", 0, 100, "us"⟩).url_search_num
      = (update_urls ⟨"pizza+delivery", "com", "en", "lang_en", "0", "off", 0, 100, "us"⟩).url_search_num ∧
    (update_urls ⟨"pizza+delivery", "com", "en", "lang_en", "0", "off", 0, 100, "us"⟩).url_next_page_num
      = (update_urls ⟨"pizza+delivery", "com", "en", "lang_en", "0", "off", 0, 100, "us"⟩).url_next_page_num :=
  c9_update_urls_deterministic _ _ rfl rfl rfl rfl rfl rfl rfl rfl rfl

/-- C6: an `extra_params` dictionary containing a key among the built-in
parameter names {btnG, cr, hl, num, q, safe, start, tbs, lr} makes
`search()` raise `ValueError` before performing any network fetch, the
warm-up home-page fetch included (the fetch count of the run is zero). -/
theorem c6_extra_param_collision :
    ∀ (cfg : SearchConfig) (pages : List FetchOutcome) (key : String),
      key ∈ google_url_parameters →
      (cfg.extra_params.any fun kv => kv.1 == key) = true →
      ∃ p, search cfg pages =
        (Except.error (PyExc.valueError
          ("GET parameter \"" ++ p ++ "\" is overlapping with the built-in GET parameter")), 0) := by
  intro cfg pages key hmem hkey
  obtain ⟨p, hp⟩ :=
    exists_find?_eq_some_of_mem (fun q => cfg.extra_params.any fun kv => kv.1 == q)
      google_url_parameters key hmem hkey
  refine ⟨p, ?_⟩
  unfold search firstOverlappingParam
  rw [hp]

/-- Witness for C6: an extra parameter named `num` fails with zero
fetches. -/
theorem c6_extra_param_collision_witness :
    ("num" ∈ google_url_parameters ∧
      ((([("num", "1")] : List (String × String)).any fun kv => kv.1 == "num") = true)) ∧
    ∃ p, search ⟨false, 100, [("num", "1")]⟩ [] =
      (Except.error (PyExc.valueError
        ("GET parameter \"" ++ p ++ "\" is overlapping with the built-in GET parameter")), 0) :=
  ⟨⟨by decide, by decide⟩,
    c6_extra_param_collision ⟨false, 100, [("num", "1")]⟩ [] "num" (by decide) (by decide)⟩

/-- C1: the dedup claim fails in verbose mode.  Python's membership test
`link not in self.search_result_list` compares the string `link` with the
record (dict) elements that verbose mode stores, which never compare
equal, so a URL accepted twice is appended twice: the final result list
carries the same URL in two elements. -/
theorem c1_verbose_duplicate_url_appended :
    search ⟨true, 10, []⟩
      [FetchOutcome.page
        [⟨some "http://duplicate.example/page", "t1", "d1"⟩,
         ⟨some "http://duplicate.example/page", "t2", "d2"⟩]]
      = (Except.ok (some
          [ResultItem.record 1 "t1" "d1" "http://duplicate.example/page",
           ResultItem.record 2 "t2" "d2" "http://duplicate.example/page"]), 3) ∧
    countUrl
      [ResultItem.record 1 "t1" "d1" "http://duplicate.example/page",
       ResultItem.record 2 "t2" "d2" "http://duplicate.example/page"]
      "http://duplicate.example/page" = 2 :=
  ⟨rfl, rfl⟩

/-- C2: the rank claim fails in verbose mode, for the same reason as the
dedup claim: a duplicate accepted link is appended again with the next
counter value as its rank, so the second record's rank (2) differs from
the 1-based position of its URL's first discovery (1). -/
theorem c2_verbose_duplicate_rank :
    search ⟨true, 10, []⟩
      [FetchOutcome.page
        [⟨some "http://rank.example/a", "t", "d"⟩,
         ⟨some "http://rank.example/a", "t", "d"⟩]]
      = (Except.ok (some
          [ResultItem.record 1 "t" "d" "http://rank.example/a",
           ResultItem.record 2 "t" "d" "http://rank.example/a"]), 3) :=
  rfl

/-- C3 counterexample: with the budget configured to 0, the loop is still
entered (`while total <= max`), the first accepted link is appended before
the budget check runs, and the returned list has length 1 > 0: "never
exceeds the budget" fails as stated for every configured budget. -/
theorem c3_budget_zero_counterexample :
    search ⟨false, 0, []⟩ [FetchOutcome.page [⟨some "http://one.example/r", "", ""⟩]]
      = (Except.ok (some [ResultItem.url "http://one.example/r"]), 2) ∧
    ¬ ([ResultItem.url "http://one.example/r"].length
        ≤ (⟨false, 0, []⟩ : SearchConfig).max_search_result_urls_to_return) :=
  ⟨rfl, by decide⟩

/-- C3 (amended to positive budgets): for every configured budget ≥ 1 the
result list returned by `search()` never has length exceeding the budget,
and as soon as the accumulated list reaches the budget the session stops
immediately, even in the middle of a page's anchors: the anchors after the
one that reached the budget are never examined, and the pages after that
page are never fetched. -/
theorem c3_budget_bound_amended :
    (∀ (cfg : SearchConfig) (pages : List FetchOutcome) (l : List ResultItem) (n : Nat),
      1 ≤ cfg.max_search_result_urls_to_return →
      search cfg pages = (Except.ok (some l), n) →
      l.length ≤ cfg.max_search_result_urls_to_return) ∧
    (∀ (cfg : SearchConfig) (a : Anchor) (rest : List Anchor)
        (res : List ResultItem) (t v : Nat) (bound : Bool) (o : PageOutcome),
      processAnchors cfg [a] res t v bound = Except.ok o →
      o.reachedBudget = true →
      processAnchors cfg (a :: rest) res t v bound = Except.ok o) ∧
    (∀ (cfg : SearchConfig) (anchors : List Anchor) (rest : List FetchOutcome)
        (res : List ResultItem) (t : Nat) (bound : Bool) (f : Nat) (o : PageOutcome),
      t ≤ cfg.max_search_result_urls_to_return →
      processAnchors cfg anchors res t 0 bound = Except.ok o →
      o.reachedBudget = true →
      searchLoop cfg (FetchOutcome.page anchors :: rest) res t bound f
        = (Except.ok (some o.results), f + 1)) := by
  refine ⟨?_, ?_, ?_⟩
  · intro cfg pages l n h1 heq
    unfold search at heq
    cases hov : firstOverlappingParam cfg.extra_params with
    | some p =>
      rw [hov] at heq
      injection heq with ha hb
      exact Except.noConfusion ha
    | none =>
      rw [hov] at heq
      exact searchLoop_length cfg pages [] 0 false 1 l n (by simpa using h1) heq
  · intro cfg a rest res t v bound o hok hreach
    cases hh : a.href with
    | none =>
      rw [show processAnchors cfg [a] res t v bound =
          (if bound then Except.ok (⟨res, t, v, bound, false⟩ : PageOutcome)
           else Except.error PyExc.unboundLocalError) by
        simp only [processAnchors, hh]] at hok
      by_cases hb : bound = true
      · rw [if_pos hb] at hok
        injection hok with hok
        subst hok
        exact Bool.noConfusion hreach
      · rw [if_neg hb] at hok
        exact Except.noConfusion hok
    | some href =>
      cases hf : filter_search_result_urls href with
      | none =>
        rw [show processAnchors cfg [a] res t v bound =
            Except.ok (⟨res, t, v, true, false⟩ : PageOutcome) by
          simp only [processAnchors, hh, hf]] at hok
        injection hok with hok
        subst hok
        exact Bool.noConfusion hreach
      | some link =>
        by_cases hc : cfg.max_search_result_urls_to_return ≤
            (stepAccept cfg a link res t v).results.length
        · have h1 : processAnchors cfg [a] res t v bound =
              Except.ok ⟨(stepAccept cfg a link res t v).results,
                (stepAccept cfg a link res t v).total,
                (stepAccept cfg a link res t v).valid, true, true⟩ := by
            simp only [processAnchors, hh, hf]
            rw [if_pos hc]
          have h2 : processAnchors cfg (a :: rest) res t v bound =
              Except.ok ⟨(stepAccept cfg a link res t v).results,
                (stepAccept cfg a link res t v).total,
                (stepAccept cfg a link res t v).valid, true, true⟩ := by
            simp only [processAnchors, hh, hf]
            rw [if_pos hc]
          rw [h1] at hok
          rw [h2]
          exact hok
        · exfalso
          rw [show processAnchors cfg [a] res t v bound =
              Except.ok (⟨(stepAccept cfg a link res t v).results,
                (stepAccept cfg a link res t v).total,
                (stepAccept cfg a link res t v).valid, true, false⟩ : PageOutcome) by
            simp only [processAnchors, hh, hf]
            rw [if_neg hc]] at hok
          injection hok with hok
          subst hok
          exact Bool.noConfusion hreach
  · intro cfg anchors rest res t bound f o ht hok hreach
    have hstep : searchLoop cfg (FetchOutcome.page anchors :: rest) res t bound f =
        if t ≤ cfg.max_search_result_urls_to_return then
          (match processAnchors cfg anchors res t 0 bound with
           | Except.error e => (Except.error e, f + 1)
           | Except.ok o1 =>
             if o1.reachedBudget then (Except.ok (some o1.results), f + 1)
             else if o1.valid = 0 then (Except.ok (some o1.results), f + 1)
             else searchLoop cfg rest o1.results o1.total o1.linkBound (f + 1))
        else (Except.ok none, f) := rfl
    rw [hstep, if_pos ht]
    simp [hok, hreach]

/-- Witness for the amended C3: a run with budget 2 and one page of three
acceptable anchors returns exactly 2 results. -/
theorem c3_budget_bound_amended_witness :
    (1 ≤ (⟨false, 2, []⟩ : SearchConfig).max_search_result_urls_to_return) ∧
    search ⟨false, 2, []⟩
      [FetchOutcome.page
        [⟨some "http://a.example/1", "", ""⟩,
         ⟨some "http://a.example/2", "", ""⟩,
         ⟨some "http://a.example/3", "", ""⟩]]
      = (Except.ok (some
          [ResultItem.url "http://a.example/1", ResultItem.url "http://a.example/2"]), 2) ∧
    ([ResultItem.url "http://a.example/1", ResultItem.url "http://a.example/2"].length
        ≤ (⟨false, 2, []⟩ : SearchConfig).max_search_result_urls_to_return) :=
  ⟨by decide, rfl,
    c3_budget_bound_amended.1 ⟨false, 2, []⟩
      [FetchOutcome.page
        [⟨some "http://a.example/1", "", ""⟩,
         ⟨some "http://a.example/2", "", ""⟩,
         ⟨some "http://a.example/3", "", ""⟩]]
      [ResultItem.url "http://a.example/1", ResultItem.url "http://a.example/2"] 2
      (by decide) rfl⟩

/-- C7: when `manages_http_429s` is false, a page fetch answered with HTTP
429 makes `get_page` return the rate-limit sentinel string instead of
retrying, and the search loop then appends the sentinel to the result list
and terminates immediately (the remaining pages are never fetched),
returning the list with the sentinel as its last element. -/
theorem c7_http429_sentinel :
    (∀ (r : HttpResponse) (rs : List HttpResponse), r.status = 429 →
      get_page false (r :: rs) = "HTTP_429_DETECTED") ∧
    (∀ (cfg : SearchConfig) (rest : List FetchOutcome) (res : List ResultItem)
        (t : Nat) (bound : Bool) (f : Nat),
      t ≤ cfg.max_search_result_urls_to_return →
      searchLoop cfg (FetchOutcome.rate429 :: rest) res t bound f
        = (Except.ok (some (res ++ [ResultItem.url "HTTP_429_DETECTED"])), f + 1) ∧
      (res ++ [ResultItem.url "HTTP_429_DETECTED"]).getLast?
        = some (ResultItem.url "HTTP_429_DETECTED")) := by
  constructor
  · intro r rs h
    simp [get_page, h]
  · intro cfg rest res t bound f ht
    constructor
    · have hstep : searchLoop cfg (FetchOutcome.rate429 :: rest) res t bound f =
          if t ≤ cfg.max_search_result_urls_to_return then
            (Except.ok (some (res ++ [ResultItem.url "HTTP_429_DETECTED"])), f + 1)
          else (Except.ok none, f) := rfl
      rw [hstep, if_pos ht]
    · simp

/-- Witness for C7: a concrete 429 response and a concrete sentinel
fetch. -/
theorem c7_http429_sentinel_witness :
    ((⟨429, "ignored"⟩ : HttpResponse).status = 429) ∧
    get_page false [⟨429, "ignored"⟩] = "HTTP_429_DETECTED" ∧
    ((0 : Nat) ≤ (⟨false, 5, []⟩ : SearchConfig).max_search_result_urls_to_return) ∧
    searchLoop ⟨false, 5, []⟩ [FetchOutcome.rate429] [] 0 false 1
      = (Except.ok (some [ResultItem.url "HTTP_429_DETECTED"]), 2) :=
  ⟨rfl, c7_http429_sentinel.1 ⟨429, "ignored"⟩ [] rfl, by decide,
    (c7_http429_sentinel.2 ⟨false, 5, []⟩ [] [] 0 false 1 (by decide)).1⟩

/-- C8: the claim fails on the code at a page whose first-processed anchor
of the run lacks an href.  There the `except KeyError` handler at
google.py line 454 formats the log message `f"No href for link: {link}"`,
and the function-local `link` is unbound until some anchor of the run has
had an href, so the handler raises `UnboundLocalError`, which escapes
`search()` instead of the accumulated (empty) list being returned.  The
first two conjuncts evaluate that crashing run; the third shows the
otherwise-graceful path: once an earlier anchor has bound `link`, an
href-less anchor is skipped and a page of zero newly-accepted links
(a duplicate) returns the accumulated list, the third page never being
fetched. -/
theorem c8_first_anchor_missing_href_crashes :
    search ⟨false, 10, []⟩ [FetchOutcome.page [⟨none, "", ""⟩]]
      = (Except.error PyExc.unboundLocalError, 2) ∧
    processAnchors ⟨false, 10, []⟩ [⟨none, "", ""⟩] [] 0 0 false
      = Except.error PyExc.unboundLocalError ∧
    search ⟨false, 10, []⟩
      [FetchOutcome.page [⟨some "http://c.example/1", "", ""⟩],
       FetchOutcome.page [⟨none, "", ""⟩, ⟨some "http://c.example/1", "", ""⟩],
       FetchOutcome.page [⟨some "http://c.example/2", "", ""⟩]]
      = (Except.ok (some [ResultItem.url "http://c.example/1"]), 3) :=
  ⟨rfl, rfl, rfl⟩

end GoogleSerp
